import Mathlib

/-!
Verification development for the nvenc-server repository.

The repository is a web UI (React, under src/) in front of a Flask backend
that runs FFmpeg commands. The frontend source is embedded here directly:
`App.tsx` (file / command / output-filename state, the `handleProcess`
request flow), `FileUpload.tsx`, `CommandInput.tsx`, `OutputFilenameInput.tsx`
and `ProcessControl.tsx`. The backend (`app.py`) is not part of the source
tree here, so its command-template validation and its execution gate are
modelled from the specification, as marked on each such definition.

Strings are modelled as Lean `String`, JavaScript `undefined`-able values as
`Option`, and JavaScript truthiness of an optional string (where both
`undefined` and the empty string are falsy) as the `truthy` predicate below.
-/

set_option autoImplicit false

namespace NvencServer

/-- A browser `File` as the frontend sees it: name, MIME type, size in bytes. -/
structure JsFile where
  name : String
  type : String
  size : Nat
deriving DecidableEq, Repr

/-- JavaScript truthiness of an optional string: `undefined` and `""` are falsy. -/
def truthy : Option String → Bool
  | none => false
  | some s => !(s == "")

/-- JavaScript `a || b` where `a` is an optional string and `b` a string:
yields the content of `a` when it is truthy, otherwise `b`. -/
def jsOrStr : Option String → String → String
  | some s, b => if s = "" then b else s
  | none, b => b

/-- Number of positions at which `pat` occurs as a sublist of `l`
(used to state the "occurs exactly once" placeholder invariants). -/
def countOccs (pat l : List Char) : Nat :=
  (List.range (l.length + 1)).countP (fun i => pat.isPrefixOf (l.drop i))

/-- Leading/trailing whitespace trimming on the character list of a string. -/
def trimChars (l : List Char) : List Char :=
  ((l.dropWhile Char.isWhitespace).reverse.dropWhile Char.isWhitespace).reverse

/-- First whitespace-separated word of a string after trimming. -/
def firstWord (s : String) : String :=
  String.mk ((trimChars s.data).takeWhile (fun c => !c.isWhitespace))

/-- The input placeholder token of a command template. -/
def inputPlaceholder : String := "{input}"

/-- The output placeholder token of a command template. -/
def outputPlaceholder : String := "{output}"

/-- The required executable-invocation token of a command template. -/
def requiredToken : String := "ffmpeg"

/-- Structural template error of the backend's validation. -/
inductive CoreError where
  | templateError
deriving DecidableEq, Repr

instance : DecidableEq (Except CoreError Unit) := fun a b =>
  match a, b with
  | Except.ok (), Except.ok () => isTrue rfl
  | Except.ok (), Except.error _ => isFalse (fun h => Except.noConfusion h)
  | Except.error _, Except.ok () => isFalse (fun h => Except.noConfusion h)
  | Except.error CoreError.templateError, Except.error CoreError.templateError => isTrue rfl

/-- Modelled from the spec: the backend Command Template Engine's `validate`
(the backend `app.py` is not included in the source tree; only the frontend
is). Per the spec it fails with `TemplateError` unless (a) the string, after
leading/trailing whitespace trimming, begins with the required
executable-invocation token `ffmpeg` as its first word, (b) the input
placeholder occurs exactly once, and (c) the output placeholder occurs
exactly once. -/
def validate (raw : String) : Except CoreError Unit :=
  if firstWord raw = requiredToken
      ∧ countOccs inputPlaceholder.data raw.data = 1
      ∧ countOccs outputPlaceholder.data raw.data = 1
  then Except.ok ()
  else Except.error CoreError.templateError

/-- Modelled from the spec: the request-handler pipeline validates the
template before the execution gate is acquired and a process is run, so the
number of external processes spawned for a request is `1` when validation
succeeds and `0` when it fails. -/
def spawnCountFor (raw : String) : Nat :=
  match validate raw with
  | Except.error _ => 0
  | Except.ok _ => 1

/-- Execution-gate mode, fixed at service startup. -/
inductive GateMode where
  | serial
  | unrestricted
deriving DecidableEq, Repr

/-- An observable event of the execution gate: an external process starts
(its execution window opens) or finishes (its window closes). -/
inductive GateEvent where
  | start
  | finish
deriving DecidableEq, Repr

/-- Modelled from the spec: one step of the Execution Gate, tracking how many
external processes are currently inside their execution windows. In serial
mode a start is only possible when no process is running (the global lock is
free); in unrestricted mode a start is always possible. A finish requires a
running process. `none` means the event cannot occur in that state. -/
def gateStep (m : GateMode) (running : Nat) : GateEvent → Option Nat
  | GateEvent.start =>
    match m with
    | GateMode.serial => if running = 0 then some 1 else none
    | GateMode.unrestricted => some (running + 1)
  | GateEvent.finish => if running = 0 then none else some (running - 1)

/-- Modelled from the spec: run a sequence of gate events from a given number
of running processes; `some n` is the number of running processes afterwards,
`none` means the sequence is not realizable under the gate's policy. -/
def gateRun (m : GateMode) (running : Nat) : List GateEvent → Option Nat
  | [] => some running
  | e :: es =>
    match gateStep m running e with
    | none => none
    | some r => gateRun m r es

lemma gateRun_serial_le_one (evs : List GateEvent) :
    ∀ r n, r ≤ 1 → gateRun GateMode.serial r evs = some n → n ≤ 1 := by
  induction evs with
  | nil =>
    intro r n hr h
    simp [gateRun] at h
    omega
  | cons e es ih =>
    intro r n hr h
    cases e with
    | start =>
      by_cases hzero : r = 0
      · subst hzero
        simp [gateRun, gateStep] at h
        exact ih 1 n (by omega) h
      · simp [gateRun, gateStep, hzero] at h
    | finish =>
      by_cases hzero : r = 0
      · simp [gateRun, gateStep, hzero] at h
      · simp [gateRun, gateStep, hzero] at h
        exact ih (r - 1) n (by omega) h

/-- The command-preset list of `CommandInput.tsx` (`commonCommands`):
display name paired with the preset command string. -/
def commonCommands : List (String × String) :=
  [ ("H.264 编码", "ffmpeg -y -i {input} -c:v libx264 -b:v 4M -c:a aac {output}"),
    ("H.265 编码", "ffmpeg -y -i {input} -c:v libx265 -b:v 4M -c:a aac {output}"),
    ("NVENC H.264", "ffmpeg -y -i {input} -c:v h264_nvenc -b:v 4M -c:a aac {output}"),
    ("NVENC H.265", "ffmpeg -y -i {input} -c:v hevc_nvenc -b:v 4M -c:a aac {output}"),
    ("压缩视频", "ffmpeg -y -i {input} -c:v libx264 -crf 23 -c:a aac {output}"),
    ("提取音频", "ffmpeg -y -i {input} -vn -acodec copy {output}"),
    ("转码为MP4", "ffmpeg -y -i {input} -c copy {output}") ]

/-- UI result status of `App.tsx` (`'success' | 'error' | 'info'`). -/
inductive UiStatus where
  | success
  | error
  | info
deriving DecidableEq, Repr

/-- The `result` state of `App.tsx`: optional status, message and download URL. -/
structure UiResult where
  status : Option UiStatus
  message : Option String
  downloadUrl : Option String
deriving DecidableEq, Repr

/-- The JSON body the frontend reads from the server response; absent fields
are `none`. `duration_ms` is `some` exactly when the field is present and
numeric (`typeof data.duration_ms === 'number'` in the source). -/
structure RespData where
  download_url : Option String
  download_path : Option String
  message : Option String
  error : Option String
  duration_ms : Option Nat
deriving DecidableEq, Repr

/-- Outcome of the `fetch` call in `handleProcess`: either the promise threw
(network error) or a response arrived with its `ok` flag, HTTP status and
parsed body. -/
inductive FetchOutcome where
  | threw
  | responded (ok : Bool) (status : Nat) (data : RespData)
deriving DecidableEq, Repr

/-- Renders `(ms / 1000).toFixed(2)` of `App.tsx` for integer millisecond
values: seconds with exactly two decimal digits, rounding half up (the
JavaScript original rounds through binary doubles, which agrees except on
floating-point representation ties). -/
def fmtSec2 (ms : Nat) : String :=
  let cent := (ms + 5) / 10
  let frac := cent % 100
  toString (cent / 100) ++ "." ++
    (if frac < 10 then "0" ++ toString frac else toString frac)

/-- The success-branch message of `handleProcess`: `secText` is the timing
text when `duration_ms` is numeric, and the completion message carries it
exactly when it is non-empty. -/
def successMessage (ms : Option Nat) : String :=
  match ms with
  | some m => "视频处理完成！" ++ ("耗时 " ++ fmtSec2 m ++ "s")
  | none => "视频处理完成！"

/-- The failure-branch message of `handleProcess`:
`(data.message && typeof data.duration_ms === 'number' ? message+timing :
data.message) || data.error || fallback` with JavaScript truthiness. -/
def failureMessage (data : RespData) (status : Nat) : String :=
  let withTiming : Option String :=
    if truthy data.message && data.duration_ms.isSome then
      some (data.message.getD "" ++ "，耗时 " ++ fmtSec2 (data.duration_ms.getD 0) ++ "s")
    else data.message
  jsOrStr withTiming
    (jsOrStr data.error ("处理失败 (HTTP " ++ toString status ++ ")"))

/-- `data.download_url || data.download_path` truthiness: the response
carries a usable download reference. -/
def hasDownloadRef (data : RespData) : Bool :=
  truthy data.download_url || truthy data.download_path

/-- The `url` computed in the success branch of `handleProcess`:
`data.download_url || (data.download_path ? '/api'+path : undefined)`. -/
def responseUrl (data : RespData) : Option String :=
  if truthy data.download_url then data.download_url
  else if truthy data.download_path then some ("/api" ++ data.download_path.getD "")
  else none

/-- The `result` value `handleProcess` stores for each fetch outcome:
success exactly on an ok response carrying a download reference, the
catch branch's fixed network-error message when the fetch threw, and the
failure message otherwise. -/
def processResult : FetchOutcome → UiResult
  | FetchOutcome.threw =>
    ⟨some UiStatus.error, some "网络错误，请确保后端服务已启动", none⟩
  | FetchOutcome.responded ok status data =>
    if ok && hasDownloadRef data then
      ⟨some UiStatus.success, some (successMessage data.duration_ms), responseUrl data⟩
    else
      ⟨some UiStatus.error, some (failureMessage data status), none⟩

/-- Whether a string contains the timing marker `耗时` that `handleProcess`
prepends to the rendered elapsed seconds. -/
def hasTimingText (msg : String) : Bool :=
  countOccs "耗时".data msg.data != 0

/-- The guard of `App.tsx`: `canProcess = file && command && outputFilename`. -/
def canProcess (file : Option JsFile) (command outputFilename : String) : Bool :=
  file.isSome && !(command == "") && !(outputFilename == "")

/-- The single POST request `handleProcess` builds: endpoint, method and the
three form fields (`file`, `command`, `output_filename`). -/
structure UploadRequest where
  url : String
  method : String
  file : JsFile
  command : String
  output_filename : String
deriving DecidableEq, Repr

/-- The requests `handleProcess` issues: after the early-return guard
(`if (!file || !command || !outputFilename) return`), exactly one `fetch`
of `/api/upload` is made, carrying the file, command and output filename as
form fields; otherwise no request is issued. -/
def handleProcessRequests : Option JsFile → String → String → List UploadRequest
  | none, _, _ => []
  | some f, c, o =>
    if c = "" then []
    else if o = "" then []
    else [⟨"/api/upload", "POST", f, c, o⟩]

/-- The App state the claims observe: the `isProcessing` flag and `result`. -/
structure AppState where
  isProcessing : Bool
  result : UiResult
deriving DecidableEq, Repr

/-- The state after `handleProcess` passes its guard and before the fetch
settles: `setIsProcessing(true)` and the info message. -/
def startProcessing (_s : AppState) : AppState :=
  ⟨true, ⟨some UiStatus.info, some "正在上传文件...", none⟩⟩

/-- The state after the fetch settles: `setResult` with the computed result,
then `setIsProcessing(false)` in the `finally` block, on every path
(ok response, error response, thrown exception). -/
def finishProcessing (outcome : FetchOutcome) (_s : AppState) : AppState :=
  ⟨false, processResult outcome⟩

/-- A full run of `handleProcess`: early return when the guard fails,
otherwise start, settle the fetch and finish. -/
def runHandleProcess (file : Option JsFile) (command outputFilename : String)
    (outcome : FetchOutcome) (s : AppState) : AppState :=
  if canProcess file command outputFilename then
    finishProcessing outcome (startProcessing s)
  else s

/-- The `disabled` condition of the process button in `ProcessControl.tsx`:
`!canProcess || isProcessing`. -/
def processButtonDisabled (canP isProcessing : Bool) : Bool :=
  !canP || isProcessing

/-- MIME-type check of `FileUpload.tsx`: `file.type.startsWith('video/')`. -/
def isVideoFile (f : JsFile) : Bool :=
  "video/".data.isPrefixOf f.type.data

/-- `handleDrop` of `FileUpload.tsx` as a state transformer on the held file:
the first dropped file is accepted only when its MIME type starts with
`video/`; otherwise (or when nothing was dropped) the held file is unchanged. -/
def handleDrop (droppedFiles : List JsFile) (cur : Option JsFile) : Option JsFile :=
  match droppedFiles with
  | [] => cur
  | f :: _ => if isVideoFile f then some f else cur

/-- `handleFileSelect` of `FileUpload.tsx`: same acceptance rule as drop,
over the input element's file list. -/
def handleFileSelect (selectedFiles : List JsFile) (cur : Option JsFile) : Option JsFile :=
  match selectedFiles with
  | [] => cur
  | f :: _ => if isVideoFile f then some f else cur

/-- `clearFile` of `FileUpload.tsx`: `onFileChange(null)`. -/
def clearFile : Option JsFile := none

/-- The held-file invariant: the file state is null or a video file. -/
def heldFileOk : Option JsFile → Bool
  | none => true
  | some f => isVideoFile f

/-- `file.name.replace(/\.[^/.]+$/, '')` of `OutputFilenameInput.tsx`: the
regex matches a final dot followed by one or more characters none of which
is a slash or a dot, so the name loses its final extension exactly when it
has one that contains no slash; otherwise it is unchanged. -/
def dropFinalExt (name : String) : String :=
  let rev := name.data.reverse
  let ext := rev.takeWhile (fun c => !(c = '.') && !(c = '/'))
  if ext.length < rev.length ∧ rev.get? ext.length = some '.' ∧ ext ≠ [] then
    String.mk ((rev.drop (ext.length + 1)).reverse)
  else name

/-- The `useEffect` of `OutputFilenameInput.tsx`: when a file is set while
the output filename is empty, the filename becomes the file's base name
suffixed with `_processed.mp4`; otherwise the filename is left unchanged. -/
def defaultOutputEffect (file : Option JsFile) (outputFilename : String) : String :=
  match file with
  | some f =>
    if outputFilename = "" then dropFinalExt f.name ++ "_processed.mp4"
    else outputFilename
  | none => outputFilename

/-- C1: for every raw command string whose trimmed form does not begin with
the required executable token, or in which the input placeholder does not
occur exactly once, or in which the output placeholder does not occur
exactly once, validation fails with `TemplateError` and no external process
is spawned for that request. -/
theorem validate_rejects_malformed_template (raw : String)
    (h : firstWord raw ≠ requiredToken
        ∨ countOccs inputPlaceholder.data raw.data ≠ 1
        ∨ countOccs outputPlaceholder.data raw.data ≠ 1) :
    validate raw = Except.error CoreError.templateError ∧ spawnCountFor raw = 0 := by
  have hcond : ¬ (firstWord raw = requiredToken
      ∧ countOccs inputPlaceholder.data raw.data = 1
      ∧ countOccs outputPlaceholder.data raw.data = 1) := by
    tauto
  have hval : validate raw = Except.error CoreError.templateError := by
    simp [validate, hcond]
  exact ⟨hval, by simp [spawnCountFor, hval]⟩

theorem validate_rejects_malformed_template_witness :
    validate "cp {input} {output}" = Except.error CoreError.templateError ∧
    spawnCountFor "cp {input} {output}" = 0 :=
  validate_rejects_malformed_template "cp {input} {output}" (Or.inl (by decide))

/-- C2: in serial mode, every realizable event sequence of the execution gate
keeps at most one external process inside its execution window, so the
execution windows of any two process requests never overlap; in unrestricted
mode a sequence with two simultaneously open execution windows is
realizable, so overlapping windows are permitted. -/
theorem serial_gate_prevents_overlap :
    (∀ evs n, gateRun GateMode.serial 0 evs = some n → n ≤ 1) ∧
    gateRun GateMode.unrestricted 0 [GateEvent.start, GateEvent.start] = some 2 := by
  constructor
  · intro evs n h
    exact gateRun_serial_le_one evs 0 n (by omega) h
  · rfl

theorem serial_gate_prevents_overlap_witness :
    gateRun GateMode.serial 0 [GateEvent.start] = some 1 ∧ (1 : Nat) ≤ 1 :=
  ⟨by decide, serial_gate_prevents_overlap.1 [GateEvent.start] 1 (by decide)⟩

lemma append_ne_empty_left (a b : String) (h : a ≠ "") : a ++ b ≠ "" := by
  intro hab
  apply h
  obtain ⟨la⟩ := a
  obtain ⟨lb⟩ := b
  have hd : la ++ lb = [] := congrArg String.data hab
  obtain ⟨h1, _⟩ := List.append_eq_nil.mp hd
  rw [h1]

lemma jsOrStr_ne_empty (x : Option String) (b : String) (hb : b ≠ "") :
    jsOrStr x b ≠ "" := by
  cases x with
  | none => simpa [jsOrStr] using hb
  | some s =>
    by_cases hs : s = ""
    · simpa [jsOrStr, hs] using hb
    · simp [jsOrStr, hs]

lemma fallback_ne_empty (status : Nat) :
    ("处理失败 (HTTP " ++ toString status ++ ")") ≠ "" := by
  have h1 : ("处理失败 (HTTP " : String) ≠ "" := by decide
  have h2 : ("处理失败 (HTTP " ++ toString status) ≠ "" := append_ne_empty_left _ _ h1
  exact append_ne_empty_left _ _ h2

lemma failureMessage_ne_empty (data : RespData) (status : Nat) :
    failureMessage data status ≠ "" := by
  unfold failureMessage
  exact jsOrStr_ne_empty _ _ (jsOrStr_ne_empty _ _ (fallback_ne_empty status))

/-- C3: every one of the seven preset command strings of `CommandInput.tsx`
begins with `ffmpeg` as its first word and contains the input and output
placeholders exactly once each, so each preset passes template validation. -/
theorem preset_commands_satisfy_template_invariants :
    commonCommands.length = 7 ∧
    ∀ p ∈ commonCommands,
      firstWord p.2 = requiredToken ∧
      countOccs inputPlaceholder.data p.2.data = 1 ∧
      countOccs outputPlaceholder.data p.2.data = 1 ∧
      validate p.2 = Except.ok () := by decide

theorem preset_commands_satisfy_template_invariants_witness :
    firstWord "ffmpeg -y -i {input} -c copy {output}" = requiredToken ∧
    countOccs inputPlaceholder.data "ffmpeg -y -i {input} -c copy {output}".data = 1 ∧
    countOccs outputPlaceholder.data "ffmpeg -y -i {input} -c copy {output}".data = 1 ∧
    validate "ffmpeg -y -i {input} -c copy {output}" = Except.ok () :=
  preset_commands_satisfy_template_invariants.2
    ("转码为MP4", "ffmpeg -y -i {input} -c copy {output}") (by decide)

/-- C6: when a file, a non-empty command and a non-empty output filename are
set, `handleProcess` issues exactly one POST request to `/api/upload`
carrying the file, the command template and the output filename as its form
fields. -/
theorem process_issues_single_upload_request (f : JsFile) (c o : String)
    (hc : c ≠ "") (ho : o ≠ "") :
    handleProcessRequests (some f) c o = [⟨"/api/upload", "POST", f, c, o⟩] := by
  simp [handleProcessRequests, hc, ho]

theorem process_issues_single_upload_request_witness :
    handleProcessRequests (some ⟨"clip.mp4", "video/mp4", 1024⟩)
        "ffmpeg -y -i {input} -c copy {output}" "out.mp4" =
      [⟨"/api/upload", "POST", ⟨"clip.mp4", "video/mp4", 1024⟩,
        "ffmpeg -y -i {input} -c copy {output}", "out.mp4"⟩] :=
  process_issues_single_upload_request ⟨"clip.mp4", "video/mp4", 1024⟩
    "ffmpeg -y -i {input} -c copy {output}" "out.mp4" (by decide) (by decide)

/-- C7 as stated is false: with a file and a command but an empty output
filename, `handleProcess` issues no request at all (its guard returns
early), and `canProcess` is false, so the process button is disabled. -/
theorem empty_output_filename_no_request :
    handleProcessRequests (some ⟨"clip.mp4", "video/mp4", 1024⟩)
        "ffmpeg -y -i {input} -c copy {output}" "" = [] ∧
    canProcess (some ⟨"clip.mp4", "video/mp4", 1024⟩)
        "ffmpeg -y -i {input} -c copy {output}" "" = false := by decide

/-- C7 amended: for the UI's one-step upload+process action the output
filename is required, not optional — with file bytes and a command template
but an empty output filename, no request is submitted and the process
button's guard is false. -/
theorem output_filename_required_for_submission (f : JsFile) (c : String) :
    handleProcessRequests (some f) c "" = [] ∧
    canProcess (some f) c "" = false := by
  constructor
  · by_cases hc : c = "" <;> simp [handleProcessRequests, hc]
  · simp [canProcess]

/-- C9: a dropped or selected file is accepted into the held-file state only
when its MIME type begins with `video/`; any non-video file leaves the state
unchanged, and clearing sets it to null, so the held file is always null or
a video file. -/
theorem held_file_video_invariant (dropped sel : List JsFile)
    (cur : Option JsFile) (f : JsFile) (rest : List JsFile)
    (h : heldFileOk cur = true) (hf : isVideoFile f = false) :
    heldFileOk (handleDrop dropped cur) = true ∧
    heldFileOk (handleFileSelect sel cur) = true ∧
    handleDrop (f :: rest) cur = cur ∧
    handleFileSelect (f :: rest) cur = cur ∧
    heldFileOk clearFile = true := by
  refine ⟨?_, ?_, ?_, ?_, rfl⟩
  · cases dropped with
    | nil => simpa [handleDrop] using h
    | cons g gs =>
      by_cases hg : isVideoFile g = true
      · simp [handleDrop, hg, heldFileOk]
      · simp only [handleDrop, Bool.not_eq_true] at hg ⊢
        simpa [hg] using h
  · cases sel with
    | nil => simpa [handleFileSelect] using h
    | cons g gs =>
      by_cases hg : isVideoFile g = true
      · simp [handleFileSelect, hg, heldFileOk]
      · simp only [handleFileSelect, Bool.not_eq_true] at hg ⊢
        simpa [hg] using h
  · simp [handleDrop, hf]
  · simp [handleFileSelect, hf]

theorem held_file_video_invariant_witness :
    heldFileOk (handleDrop [⟨"notes.txt", "text/plain", 10⟩] none) = true ∧
    heldFileOk (handleFileSelect [⟨"movie.mkv", "video/x-matroska", 99⟩] none) = true ∧
    handleDrop [⟨"notes.txt", "text/plain", 10⟩] none = none ∧
    handleFileSelect [⟨"notes.txt", "text/plain", 10⟩] none = none ∧
    heldFileOk clearFile = true :=
  held_file_video_invariant [⟨"notes.txt", "text/plain", 10⟩]
    [⟨"movie.mkv", "video/x-matroska", 99⟩] none ⟨"notes.txt", "text/plain", 10⟩ []
    (by decide) (by decide)

/-- C10: when a file is set while the output filename is empty, the effect
of `OutputFilenameInput.tsx` sets the filename to the file's name with its
final extension removed suffixed with `_processed.mp4`; a non-empty filename
is never overwritten. -/
theorem default_output_filename_effect (f : JsFile) (out : String)
    (file : Option JsFile) :
    (out = "" →
      defaultOutputEffect (some f) out = dropFinalExt f.name ++ "_processed.mp4") ∧
    (out ≠ "" → defaultOutputEffect file out = out) := by
  constructor
  · intro h
    simp [defaultOutputEffect, h]
  · intro h
    cases file <;> simp [defaultOutputEffect, h]

theorem default_output_filename_effect_witness :
    defaultOutputEffect (some ⟨"clip.mp4", "video/mp4", 1024⟩) "" = "clip_processed.mp4" ∧
    defaultOutputEffect (some ⟨"clip.mp4", "video/mp4", 1024⟩) "out.mp4" = "out.mp4" := by
  constructor
  · have h := (default_output_filename_effect ⟨"clip.mp4", "video/mp4", 1024⟩ ""
      (some ⟨"clip.mp4", "video/mp4", 1024⟩)).1 rfl
    rw [h]
    decide
  · exact (default_output_filename_effect ⟨"clip.mp4", "video/mp4", 1024⟩ "out.mp4"
      (some ⟨"clip.mp4", "video/mp4", 1024⟩)).2 (by decide)

/-- C4: `handleProcess` stores status success exactly when the response is
ok and carries a download reference; on every other outcome — error
response, ok response without a download reference, or a thrown fetch — it
stores status error together with a non-empty message. -/
theorem process_status_success_iff :
    (∀ (ok : Bool) (status : Nat) (data : RespData),
      (processResult (FetchOutcome.responded ok status data)).status = some UiStatus.success
        ↔ ok = true ∧ hasDownloadRef data = true) ∧
    (∀ (ok : Bool) (status : Nat) (data : RespData),
      ¬(ok = true ∧ hasDownloadRef data = true) →
      (processResult (FetchOutcome.responded ok status data)).status = some UiStatus.error ∧
      ∃ m, (processResult (FetchOutcome.responded ok status data)).message = some m ∧ m ≠ "") ∧
    ((processResult FetchOutcome.threw).status = some UiStatus.error ∧
      ∃ m, (processResult FetchOutcome.threw).message = some m ∧ m ≠ "") := by
  refine ⟨?_, ?_, ?_, ?_⟩
  · intro ok status data
    by_cases hc : ok = true ∧ hasDownloadRef data = true
    · have hb : (ok && hasDownloadRef data) = true := by simp [hc.1, hc.2]
      simp [processResult, hb, hc]
    · have hb : (ok && hasDownloadRef data) = false := by
        cases ok <;> simp_all
      simp [processResult, hb, hc]
  · intro ok status data hc
    have hb : (ok && hasDownloadRef data) = false := by
      cases ok <;> simp_all
    refine ⟨by simp [processResult, hb], failureMessage data status, ?_, ?_⟩
    · simp [processResult, hb]
    · exact failureMessage_ne_empty data status
  · simp [processResult]
  · exact ⟨"网络错误，请确保后端服务已启动", by simp [processResult], by decide⟩

theorem process_status_success_iff_witness :
    (processResult (FetchOutcome.responded true 200
      ⟨some "/d/x", none, none, none, some 1234⟩)).status = some UiStatus.success :=
  (process_status_success_iff.1 true 200
      ⟨some "/d/x", none, none, none, some 1234⟩).mpr ⟨rfl, by decide⟩

/-- C5 as stated is false: a failure response whose `duration_ms` is the
number 500 but which carries no message field is displayed as the bare HTTP
fallback text with no timing text, although the claim requires the elapsed
time on the failure path whenever `duration_ms` is numeric. -/
theorem duration_without_message_counterexample :
    (⟨none, none, none, none, some 500⟩ : RespData).duration_ms = some 500 ∧
    (processResult (FetchOutcome.responded false 500
      ⟨none, none, none, none, some 500⟩)).message = some "处理失败 (HTTP 500)" ∧
    hasTimingText "处理失败 (HTTP 500)" = false := by decide

/-- C5 amended: on the success path a numeric `duration_ms` always yields
the timing text (seconds, two decimals) and an absent one omits it; on the
failure path the timing text is appended only when the response also carries
a non-empty message — with a falsy message the error/fallback text is shown
without appended timing, and with `duration_ms` absent nothing is appended
either. -/
theorem duration_reporting_amended (ok : Bool) (status m : Nat) (data : RespData) :
    (hasDownloadRef data = true → data.duration_ms = some m →
      (processResult (FetchOutcome.responded true status data)).message =
        some ("视频处理完成！" ++ ("耗时 " ++ fmtSec2 m ++ "s"))) ∧
    (hasDownloadRef data = true → data.duration_ms = none →
      (processResult (FetchOutcome.responded true status data)).message =
        some "视频处理完成！") ∧
    ((ok && hasDownloadRef data) = false → truthy data.message = true →
      data.duration_ms = some m →
      (processResult (FetchOutcome.responded ok status data)).message =
        some (data.message.getD "" ++ "，耗时 " ++ fmtSec2 m ++ "s")) ∧
    ((ok && hasDownloadRef data) = false → truthy data.message = false →
      (processResult (FetchOutcome.responded ok status data)).message =
        some (jsOrStr data.error ("处理失败 (HTTP " ++ toString status ++ ")"))) ∧
    ((ok && hasDownloadRef data) = false → data.duration_ms = none →
      (processResult (FetchOutcome.responded ok status data)).message =
        some (jsOrStr data.message
          (jsOrStr data.error ("处理失败 (HTTP " ++ toString status ++ ")")))) := by
  refine ⟨?_, ?_, ?_, ?_, ?_⟩
  · intro h hd
    have hb : (true && hasDownloadRef data) = true := by simp [h]
    simp [processResult, hb, successMessage, hd]
  · intro h hd
    have hb : (true && hasDownloadRef data) = true := by simp [h]
    simp [processResult, hb, successMessage, hd]
  · intro hb ht hd
    obtain ⟨s, hs⟩ : ∃ s, data.message = some s := by
      cases hmsg : data.message with
      | none => rw [hmsg] at ht; simp [truthy] at ht
      | some s => exact ⟨s, rfl⟩
    have hsne : s ≠ "" := by
      rw [hs] at ht
      simpa [truthy] using ht
    have happ : (s ++ "，耗时 " ++ fmtSec2 m ++ "s") ≠ "" := by
      have : (s ++ "，耗时 ") ≠ "" := append_ne_empty_left _ _ hsne
      exact append_ne_empty_left _ _ (append_ne_empty_left _ _ this)
    simp only [processResult, hb, Bool.false_eq_true, if_false]
    simp [failureMessage, hs, hd, truthy, hsne, jsOrStr, happ]
  · intro hb ht
    simp only [processResult, hb, Bool.false_eq_true, if_false]
    cases hmsg : data.message with
    | none => simp [failureMessage, hmsg, jsOrStr, truthy]
    | some s =>
      have hs : s = "" := by
        rw [hmsg] at ht
        simpa [truthy] using ht
      simp [failureMessage, hmsg, hs, truthy, jsOrStr]
  · intro hb hd
    simp only [processResult, hb, Bool.false_eq_true, if_false]
    simp [failureMessage, hd]

theorem duration_reporting_amended_witness :
    (processResult (FetchOutcome.responded false 500
      ⟨none, none, some "boom", none, some 1500⟩)).message =
      some ("boom" ++ "，耗时 " ++ fmtSec2 1500 ++ "s") :=
  (duration_reporting_amended false 500 1500
      ⟨none, none, some "boom", none, some 1500⟩).2.2.1 rfl (by decide) rfl

/-- C8: a run of `handleProcess` that passes its guard sets `isProcessing`
while the request is in flight (so the process button is disabled) and
resets it to false after the fetch settles on every outcome — ok response,
error response or thrown exception — so the button is enabled again. -/
theorem isProcessing_reset_after_process (file : Option JsFile)
    (c o : String) (outcome : FetchOutcome) (s : AppState)
    (hcan : canProcess file c o = true) :
    (runHandleProcess file c o outcome s).isProcessing = false ∧
    (startProcessing s).isProcessing = true ∧
    processButtonDisabled (canProcess file c o) (startProcessing s).isProcessing = true ∧
    processButtonDisabled (canProcess file c o)
      (runHandleProcess file c o outcome s).isProcessing = false := by
  refine ⟨?_, rfl, ?_, ?_⟩
  · simp [runHandleProcess, hcan, finishProcessing]
  · simp [processButtonDisabled, startProcessing]
  · simp [processButtonDisabled, runHandleProcess, hcan, finishProcessing]

theorem isProcessing_reset_after_process_witness :
    (runHandleProcess (some ⟨"clip.mp4", "video/mp4", 1024⟩)
      "ffmpeg -y -i {input} -c copy {output}" "out.mp4" FetchOutcome.threw
      ⟨false, ⟨none, none, none⟩⟩).isProcessing = false ∧
    (startProcessing ⟨false, ⟨none, none, none⟩⟩).isProcessing = true ∧
    processButtonDisabled (canProcess (some ⟨"clip.mp4", "video/mp4", 1024⟩)
      "ffmpeg -y -i {input} -c copy {output}" "out.mp4")
      (startProcessing ⟨false, ⟨none, none, none⟩⟩).isProcessing = true ∧
    processButtonDisabled (canProcess (some ⟨"clip.mp4", "video/mp4", 1024⟩)
      "ffmpeg -y -i {input} -c copy {output}" "out.mp4")
      (runHandleProcess (some ⟨"clip.mp4", "video/mp4", 1024⟩)
        "ffmpeg -y -i {input} -c copy {output}" "out.mp4" FetchOutcome.threw
        ⟨false, ⟨none, none, none⟩⟩).isProcessing = false :=
  isProcessing_reset_after_process (some ⟨"clip.mp4", "video/mp4", 1024⟩)
    "ffmpeg -y -i {input} -c copy {output}" "out.mp4" FetchOutcome.threw
    ⟨false, ⟨none, none, none⟩⟩ (by decide)

end NvencServer
